import Mathlib

/-!
# Verification of rcrosshair (crosshair overlay renderer)

Shallow embedding of the rcrosshair sources (`src/crosshair.rs`,
`src/app.rs`, `src/cache_params.rs`, `src/main.rs`) and proofs about them.

Modelling conventions:
* Rust `f32` arithmetic is modelled by exact rational arithmetic (`ℚ`).
  Every concrete witness and counterexample below is chosen so that all the
  intermediate `f32` values of the source are exactly representable, hence
  the rational model agrees with the machine computation there.
* Rust `Instant` timestamps are modelled as natural numbers counting
  milliseconds; `Instant::duration_since` saturates at zero, which matches
  natural-number subtraction, and `Duration::as_millis` is the identity in
  this granularity.
* A Rust panic (out-of-bounds index or slice) is modelled by `Option`:
  `none` is a panic, `some` a normal return.
* External collaborators (the `image` decoders, `serde_json`, the Wayland
  compositor, the filesystem) are modelled at their documented interface,
  as the spec itself prescribes ("treated as external collaborators,
  specified only at their interface").
-/

namespace Rcrosshair

/-! ## Pixel compositor (src/crosshair.rs, `process_buffer`) -/

/-- One RGBA pixel of a decoded `RgbaImage`; each channel is a byte value. -/
structure Pixel where
  r : ℕ
  g : ℕ
  b : ℕ
  a : ℕ
deriving DecidableEq, Repr

/-- Rust's saturating float-to-`u8` cast `x as u8`: truncation toward zero,
clamped to `[0, 255]` (the source never produces NaN here; on the
non-negative inputs that occur, truncation toward zero is the floor). -/
def asU8 (x : ℚ) : ℕ :=
  (min (max x.floor 0) 255).toNat

/-- The four output bytes the `process_buffer` loop body appends for one
pixel: premultiplied `(b', g', r', a')`, from `crosshair.rs` lines 36-47. -/
def pixelBytes (opacity : ℚ) (p : Pixel) : List ℕ :=
  let alpha_f : ℚ := (p.a * opacity) / 255
  let new_a := asU8 (p.a * opacity)
  let new_r := asU8 (p.r * alpha_f)
  let new_g := asU8 (p.g * alpha_f)
  let new_b := asU8 (p.b * alpha_f)
  [new_b, new_g, new_r, new_a]

/-- `process_buffer` (`crosshair.rs` lines 32-49): iterate the pixels in
order, appending the four premultiplied bytes of each to the output. -/
def process_buffer (buffer : List Pixel) (opacity : ℚ) : List ℕ :=
  buffer.foldl (fun data p => data ++ pixelBytes opacity p) []

/-! ## Image loading (src/crosshair.rs, `load_image`) -/

/-- The image formats `ImageFormat::from_extension` recognises (the subset
needed here; the source matches only on `Gif` versus everything else). -/
inductive ImageFormat where
  | gif
  | png
  | jpeg
  | bmp
deriving DecidableEq, Repr

/-- Model of `image::ImageFormat::from_path`: the format is chosen from the
path's extension string alone. -/
def formatFromExtension (ext : String) : Option ImageFormat :=
  if ext = "gif" then some .gif
  else if ext = "png" then some .png
  else if ext = "jpg" ∨ ext = "jpeg" then some .jpeg
  else if ext = "bmp" then some .bmp
  else none

/-- An input file: its path extension together with its byte content. -/
structure ModelFile where
  ext : String
  content : List ℕ
deriving DecidableEq, Repr

/-- Model of `image::ImageReader::open(path)?.format()`: `ImageReader::open`
records `ImageFormat::from_path(path)`, which inspects only the extension;
the file content plays no role (content sniffing would require the separate
`with_guessed_format`, which `load_image` does not call). -/
def readerFormat (f : ModelFile) : Option ImageFormat :=
  formatFromExtension f.ext

/-- Which decoder `load_image` dispatches to after reading the format
(`crosshair.rs` lines 71-107): the dedicated `GifDecoder` for `Gif`, the
generic `reader.decode()` for every other recognised format. -/
inductive Branch where
  | gifDecoder
  | genericDecode
deriving DecidableEq, Repr

/-- The decoder branch selected by the format match in `load_image`. -/
def branchOf (fmt : ImageFormat) : Branch :=
  match fmt with
  | .gif => .gifDecoder
  | _ => .genericDecode

/-- Magic header each decoder of the `image` crate demands before decoding
(interface model: `GifDecoder::new` rejects content that does not start
with "GIF8", the PNG decoder rejects content without the PNG signature,
and so on). Only the leading bytes matter for the claims below. -/
def magicOf (fmt : ImageFormat) : List ℕ :=
  match fmt with
  | .gif => [0x47, 0x49, 0x46, 0x38]
  | .png => [0x89, 0x50, 0x4E, 0x47]
  | .jpeg => [0xFF, 0xD8, 0xFF]
  | .bmp => [0x42, 0x4D]

/-- Coarse result of `load_image`: which kind of image came back, or that
the call failed (`UnknownFormat`, or a decode error). -/
inductive LoadResult where
  | gifImage
  | staticImage
  | err
deriving DecidableEq, Repr

/-- Interface-level model of `load_image` (`crosshair.rs` lines 63-110):
the format is read from the extension; an unrecognised extension is the
`UnknownFormat` error; otherwise the branch picked by the format runs its
decoder, which succeeds exactly when the content carries that format's
magic header. -/
def load_image_model (f : ModelFile) : LoadResult :=
  match readerFormat f with
  | none => .err
  | some fmt =>
      if (magicOf fmt).isPrefixOf f.content then
        match branchOf fmt with
        | .gifDecoder => .gifImage
        | .genericDecode => .staticImage
      else .err

/-- The decoder branch `load_image` commits to, `none` when it errors out
with `UnknownFormat` before touching any decoder. -/
def load_image_branch (f : ModelFile) : Option Branch :=
  (readerFormat f).map branchOf

/-! ## Animated image state (src/crosshair.rs and src/app.rs `frame`) -/

/-- `GifFrame` (`crosshair.rs` lines 12-15). -/
structure GifFrame where
  data : List ℕ
  delay_ms : ℕ
deriving DecidableEq, Repr

/-- `Frame` (`crosshair.rs` lines 17-19), a static image's pixel bytes. -/
structure Frame where
  data : List ℕ
deriving DecidableEq, Repr

/-- `GifImage` (`crosshair.rs` lines 21-25); `last_frame_time` is the
`Instant`, in milliseconds. -/
structure GifImage where
  frames : List GifFrame
  current_frame : ℕ
  last_frame_time : ℕ
deriving DecidableEq, Repr

/-- `CrosshairImage` (`crosshair.rs` lines 27-30). -/
inductive CrosshairImage where
  | Static (f : Frame)
  | Gif (g : GifImage)
deriving DecidableEq, Repr

/-- A decoded animation frame as produced by `collect_frames`: its RGBA
pixels and its authored delay in milliseconds. -/
structure RawFrame where
  pixels : List Pixel
  delay_ms : ℕ
deriving DecidableEq, Repr

/-- The GIF branch of `load_image` (`crosshair.rs` lines 72-98) after
`collect_frames` returned `decoded`: premultiply every frame, start at
frame index 0 with the decode-completion timestamp. No emptiness check is
performed on `decoded`. -/
def gifFromDecoded (decoded : List RawFrame) (opacity : ℚ) (now : ℕ) : GifImage :=
  { frames := decoded.map fun fr =>
      { data := process_buffer fr.pixels opacity, delay_ms := fr.delay_ms }
    current_frame := 0
    last_frame_time := now }

/-- The pure frame-advance assignment of the scheduler (`app.rs` line 73):
`current_frame = (current_frame + 1) % frames.len()`. -/
def advanceFrame (s : GifImage) : GifImage :=
  { s with current_frame := (s.current_frame + 1) % s.frames.length }

/-- The frame-ready handler's scheduler step (`app.rs` lines 66-75):
index the current frame (a panic, `none`, when out of bounds — in
particular when `frames` is empty), then advance when the elapsed time has
reached the frame's delay. -/
def frameStep (s : GifImage) (now : ℕ) : Option GifImage :=
  match s.frames.get? s.current_frame with
  | none => none
  | some f =>
      if now - s.last_frame_time ≥ f.delay_ms then
        some { s with
                current_frame := (s.current_frame + 1) % s.frames.length
                last_frame_time := now }
      else
        some s

/-! ## Buffer pool and configure (src/app.rs, `configure`) -/

/-- The slice of `App` state that the pool-resize part of `configure`
reads and writes: the pool's byte capacity (`SlotPool::len`) and the
current surface size. -/
structure PoolState where
  len : ℕ
  width : ℕ
  height : ℕ
deriving DecidableEq, Repr

/-- The pool-resize and size-update part of `configure` (`app.rs` lines
149-168). A zero proposed dimension means "keep the existing one". The
pool is reallocated only when `new_w*new_h*4` exceeds the current
capacity, to `max(needed, width*height*4)` computed from the *previous*
size; `allocOk` models whether `SlotPool::new` succeeded (on failure the
old pool is kept and the error is only logged). -/
def configurePool (allocOk : Bool) (s : PoolState) (cw ch : ℕ) : PoolState :=
  let new_w := if cw = 0 then s.width else cw
  let new_h := if ch = 0 then s.height else ch
  let needed := new_w * new_h * 4
  let len' :=
    if needed > s.len then
      if allocOk then max needed (s.width * s.height * 4) else s.len
    else s.len
  { len := len', width := new_w, height := new_h }

/-- Which edges the layer surface is anchored to. -/
structure AnchorSet where
  top : Bool
  left : Bool
  bottom : Bool
  right : Bool
deriving DecidableEq, Repr

/-- Margins as passed to `set_margin(top, right, bottom, left)`. -/
structure Margins where
  top : ℤ
  right : ℤ
  bottom : ℤ
  left : ℤ
deriving DecidableEq, Repr

/-- The protocol effects of the positioning part of `configure`. -/
structure PositionEffects where
  anchors : AnchorSet
  margins : Margins
  positioned : Bool
  committed : Bool
deriving DecidableEq, Repr

/-- The positioning part of `configure` (`app.rs` lines 170-182).
`outputInfo = none` models "no output enumerated yet, or no info for it"
(the `if let` guard fails and nothing is emitted); `some logical` carries
`OutputInfo::logical_size`, defaulted to `(1920, 1080)` when absent.
Division is Rust `i32` division, i.e. truncation toward zero. -/
def configurePosition (outputInfo : Option (Option (ℤ × ℤ))) (tx ty : ℕ) :
    Option PositionEffects :=
  match outputInfo with
  | none => none
  | some logical =>
      let sw := (logical.getD (1920, 1080)).1
      let sh := (logical.getD (1920, 1080)).2
      some { anchors := { top := true, left := true, bottom := false, right := false }
             margins := { top := Int.tdiv sh 2 - (ty : ℤ)
                          right := 0
                          bottom := 0
                          left := Int.tdiv sw 2 - (tx : ℤ) }
             positioned := true
             committed := true }

/-! ## Drawing (src/app.rs, `draw`) -/

/-- The observable effects of one successful `draw` call. -/
structure DrawEffects where
  canvas : List ℕ
  frameRequested : Bool
  committed : Bool
deriving DecidableEq, Repr

/-- `draw` (`app.rs` lines 212-253), assuming `create_buffer` succeeds:
the canvas has `stride * height = width*4*height` bytes, is cleared to 0,
and the current frame's bytes are copied over its first
`frame.data.len()` bytes by `canvas[..frame.data.len()]` — a panic
(`none`) when the frame data is longer than the canvas, and for a GIF also
when `current_frame` is out of bounds. Only the GIF branch requests a
follow-up frame callback. -/
def draw (width height : ℕ) (img : CrosshairImage) : Option DrawEffects :=
  let canvasLen := width * 4 * height
  let frameData : Option (List ℕ) :=
    match img with
    | .Gif g => (g.frames.get? g.current_frame).map GifFrame.data
    | .Static f => some f.data
  match frameData with
  | none => none
  | some d =>
      if d.length ≤ canvasLen then
        some { canvas := d ++ List.replicate (canvasLen - d.length) 0
               frameRequested := match img with
                 | .Gif _ => true
                 | .Static _ => false
               committed := true }
      else none

/-! ## Parameter cache (src/cache_params.rs) -/

/-- `CachedParams` (`cache_params.rs` lines 42-48); `opacity` is the `f32`
value, modelled exactly as a rational. -/
structure CachedParams where
  path_for_readability : String
  target_x : ℕ
  target_y : ℕ
  opacity : ℚ
deriving DecidableEq, Repr

/-- `Cache.history` (`cache_params.rs` lines 37-40): a finite mapping from
content-hash strings to `CachedParams`, modelled as an association list
compared as a mapping. -/
abbrev Cache := List (String × CachedParams)

/-- What `fs::read_to_string` followed by `serde_json::from_str` can see
at a path, at the persistence-boundary interface: the file is absent (the
read fails), present but not a serialisation of any `Cache` (the parse
fails), or the serialisation `serde_json::to_string_pretty` produced for a
cache `c` (which `from_str` parses back to `c` — the round-trip contract
of the serialisation library). -/
inductive FileState where
  | absent
  | unparsable
  | stored (c : Cache)
deriving DecidableEq, Repr

/-- `load_cache` (`cache_params.rs` lines 54-57): `read_to_string(..)
.unwrap_or_default()` turns a failed read into `""`, which fails to parse;
`serde_json::from_str(..).unwrap_or_default()` turns any parse failure
into the empty (`Default`) cache. -/
def load_cache (fs : String → FileState) (path : String) : Cache :=
  match fs path with
  | .absent => []
  | .unparsable => []
  | .stored c => c

/-- `save_cache` (`cache_params.rs` lines 59-69): write the serialisation
of `cache` at `path` (parent-directory creation and its I/O failures are
outside the claims below and not modelled). -/
def save_cache (fs : String → FileState) (path : String) (cache : Cache) :
    String → FileState :=
  fun p => if p = path then .stored cache else fs p

/-! ## Helper lemmas -/

/-- Folding the loop body of `process_buffer` over a pixel list appends the
per-pixel byte groups, in order, to the accumulator. -/
theorem foldl_pixelBytes_acc (l : List Pixel) (o : ℚ) (acc : List ℕ) :
    l.foldl (fun data p => data ++ pixelBytes o p) acc =
      acc ++ (l.map (pixelBytes o)).flatten := by
  induction l generalizing acc with
  | nil => simp
  | cons p t ih => simp [ih, List.append_assoc]

/-- `process_buffer` is the concatenation of the per-pixel byte groups in
pixel order. -/
theorem process_buffer_eq_join (buffer : List Pixel) (o : ℚ) :
    process_buffer buffer o = (buffer.map (pixelBytes o)).flatten := by
  simpa using foldl_pixelBytes_acc buffer o []

/-- Mapping two pointwise-equal functions over a list gives equal lists. -/
theorem map_eq_of_mem_eq {α β : Type} {l : List α} {f g : α → β}
    (h : ∀ a ∈ l, f a = g a) : l.map f = l.map g := by
  induction l with
  | nil => rfl
  | cons x t ih =>
      simp only [List.map_cons]
      rw [h x (List.mem_cons_self x t), ih fun a ha => h a (List.mem_cons_of_mem x ha)]

/-- `Rat.floor` agrees with the `Int.floor` of the floor ring on `ℚ`. -/
theorem ratFloor_eq_intFloor (q : ℚ) : q.floor = ⌊q⌋ := by
  rw [Rat.floor_def, Rat.floor_def']

/-- On `[0, 255]` the saturating cast is plain truncation (floor). -/
theorem asU8_eq_floor {x : ℚ} (h0 : 0 ≤ x) (h255 : x ≤ 255) :
    asU8 x = (⌊x⌋).toNat := by
  have hf0 : (0 : ℤ) ≤ ⌊x⌋ := Int.floor_nonneg.mpr h0
  have hf255 : ⌊x⌋ ≤ 255 := by
    have h := Int.floor_le_floor h255
    have h255' : ⌊(255 : ℚ)⌋ = 255 := by
      rw [show (255 : ℚ) = ((255 : ℤ) : ℚ) by norm_num, Int.floor_intCast]
    rw [h255'] at h
    exact h
  unfold asU8
  rw [ratFloor_eq_intFloor, max_eq_left hf0, min_eq_left hf255]

/-- The saturating cast restores a byte value. -/
theorem asU8_natCast {n : ℕ} (h : n ≤ 255) : asU8 ((n : ℕ) : ℚ) = n := by
  rw [asU8_eq_floor (by positivity) (by exact_mod_cast h), Int.floor_natCast]
  exact Int.toNat_natCast n

/-- A channel value at most 255 scaled by a factor in `[0, 1]` stays in
`[0, 255]`. -/
theorem channel_scale_bounds {c : ℕ} (hc : c ≤ 255) {f : ℚ}
    (hf0 : 0 ≤ f) (hf1 : f ≤ 1) :
    0 ≤ (c : ℚ) * f ∧ (c : ℚ) * f ≤ 255 := by
  constructor
  · positivity
  · calc (c : ℚ) * f ≤ 255 * 1 := by
          apply mul_le_mul (by exact_mod_cast hc) hf1 hf0 (by norm_num)
    _ = 255 := by norm_num

/-- For opacity in `[0, 1]` and a valid alpha byte, the premultiplied alpha
factor `(a·o)/255` lies in `[0, 1]`. -/
theorem alpha_factor_bounds {a : ℕ} (ha : a ≤ 255) {o : ℚ}
    (ho0 : 0 ≤ o) (ho1 : o ≤ 1) :
    0 ≤ ((a : ℚ) * o) / 255 ∧ ((a : ℚ) * o) / 255 ≤ 1 := by
  have h := channel_scale_bounds ha ho0 ho1
  constructor
  · positivity
  · rw [div_le_one (by norm_num)]
    exact h.2

/-- On in-range inputs, the four bytes the loop body emits are the floors
of the exact premultiplication formulas, in `(b', g', r', a')` order. -/
theorem pixelBytes_eq_floor (o : ℚ) (p : Pixel) (ho0 : 0 ≤ o) (ho1 : o ≤ 1)
    (hr : p.r ≤ 255) (hg : p.g ≤ 255) (hb : p.b ≤ 255) (ha : p.a ≤ 255) :
    pixelBytes o p =
      [(⌊(p.b : ℚ) * (((p.a : ℚ) * o) / 255)⌋).toNat,
       (⌊(p.g : ℚ) * (((p.a : ℚ) * o) / 255)⌋).toNat,
       (⌊(p.r : ℚ) * (((p.a : ℚ) * o) / 255)⌋).toNat,
       (⌊(p.a : ℚ) * o⌋).toNat] := by
  have hαf := alpha_factor_bounds ha ho0 ho1
  have hA := channel_scale_bounds ha ho0 ho1
  have hR := channel_scale_bounds hr hαf.1 hαf.2
  have hG := channel_scale_bounds hg hαf.1 hαf.2
  have hB := channel_scale_bounds hb hαf.1 hαf.2
  dsimp only [pixelBytes]
  rw [asU8_eq_floor hB.1 hB.2, asU8_eq_floor hG.1 hG.2,
    asU8_eq_floor hR.1 hR.2, asU8_eq_floor hA.1 hA.2]

/-! ## Claims -/

/-- C1 (counterexample): the claim demands `a' = round(a·o)`, but the
source casts with `as u8`, which truncates. For the pixel `(0,0,0,255)` at
opacity `1/2` (all intermediate `f32` values exact), the code emits alpha
byte 127 while `round(255 · 1/2) = round(127.5) = 128`. -/
theorem C1_round_counterexample :
    process_buffer [⟨0, 0, 0, 255⟩] (1 / 2) = [0, 0, 0, 127] ∧
      round ((255 : ℚ) * (1 / 2)) = 128 := by
  constructor
  · show [] ++ pixelBytes (1 / 2) ⟨0, 0, 0, 255⟩ = [0, 0, 0, 127]
    rw [List.nil_append,
      pixelBytes_eq_floor (1 / 2) ⟨0, 0, 0, 255⟩ (by norm_num) (by norm_num)
        (by decide) (by decide) (by decide) (by decide)]
    norm_num
    rfl
  · rw [round_eq]
    norm_num

/-- C1 (amended): for every pixel buffer and opacity `o ∈ [0, 1]` with byte
channels, `process_buffer` emits per pixel the four bytes
`(b', g', r', a')` with `a' = ⌊a·o⌋` (truncation, not rounding),
`alpha_factor = (a·o)/255`, `r' = ⌊r·alpha_factor⌋`,
`g' = ⌊g·alpha_factor⌋`, `b' = ⌊b·alpha_factor⌋`, and the output buffer is
the concatenation of these groups in pixel order. -/
theorem C1_process_buffer_formula (buffer : List Pixel) (o : ℚ)
    (ho0 : 0 ≤ o) (ho1 : o ≤ 1)
    (hv : ∀ p ∈ buffer, p.r ≤ 255 ∧ p.g ≤ 255 ∧ p.b ≤ 255 ∧ p.a ≤ 255) :
    process_buffer buffer o =
      (buffer.map fun p =>
        [(⌊(p.b : ℚ) * (((p.a : ℚ) * o) / 255)⌋).toNat,
         (⌊(p.g : ℚ) * (((p.a : ℚ) * o) / 255)⌋).toNat,
         (⌊(p.r : ℚ) * (((p.a : ℚ) * o) / 255)⌋).toNat,
         (⌊(p.a : ℚ) * o⌋).toNat]).flatten := by
  rw [process_buffer_eq_join]
  congr 1
  exact map_eq_of_mem_eq fun p hp =>
    pixelBytes_eq_floor o p ho0 ho1 (hv p hp).1 (hv p hp).2.1 (hv p hp).2.2.1
      (hv p hp).2.2.2

/-- C1 (witness): the amended formula evaluated at a concrete two-pixel
buffer with opacity `1/2`. -/
theorem C1_process_buffer_formula_witness :
    process_buffer [⟨255, 128, 64, 255⟩, ⟨0, 0, 0, 255⟩] (1 / 2) =
      (([⟨255, 128, 64, 255⟩, ⟨0, 0, 0, 255⟩] : List Pixel).map fun p =>
        [(⌊(p.b : ℚ) * (((p.a : ℚ) * (1 / 2)) / 255)⌋).toNat,
         (⌊(p.g : ℚ) * (((p.a : ℚ) * (1 / 2)) / 255)⌋).toNat,
         (⌊(p.r : ℚ) * (((p.a : ℚ) * (1 / 2)) / 255)⌋).toNat,
         (⌊(p.a : ℚ) * (1 / 2)⌋).toNat]).flatten :=
  C1_process_buffer_formula [⟨255, 128, 64, 255⟩, ⟨0, 0, 0, 255⟩] (1 / 2)
    (by norm_num) (by norm_num) (by decide)

/-- C8: processing a fully opaque pixel at opacity 1 preserves the colour
channels (emitted in `(b, g, r, a)` order), and processing any pixel at
opacity 0 yields transparent black `(0, 0, 0, 0)`. -/
theorem C8_opacity_endpoints :
    (∀ r g b : ℕ, r ≤ 255 → g ≤ 255 → b ≤ 255 →
        process_buffer [⟨r, g, b, 255⟩] 1 = [b, g, r, 255]) ∧
      ∀ p : Pixel, process_buffer [p] 0 = [0, 0, 0, 0] := by
  constructor
  · intro r g b hr hg hb
    show [] ++ pixelBytes 1 ⟨r, g, b, 255⟩ = [b, g, r, 255]
    rw [List.nil_append]
    dsimp only [pixelBytes]
    rw [show ((255 : ℕ) : ℚ) * 1 / 255 = 1 by norm_num]
    simp only [mul_one]
    rw [asU8_natCast hb, asU8_natCast hg, asU8_natCast hr,
      asU8_natCast (le_refl 255)]
  · intro p
    show [] ++ pixelBytes 0 p = [0, 0, 0, 0]
    rw [List.nil_append]
    dsimp only [pixelBytes]
    simp only [mul_zero, zero_div]
    rw [show asU8 0 = 0 from rfl]

/-- C8 (witness): both endpoint behaviours at concrete pixels. -/
theorem C8_opacity_endpoints_witness :
    process_buffer [⟨10, 20, 30, 255⟩] 1 = [30, 20, 10, 255] ∧
      process_buffer [⟨200, 100, 50, 25⟩] 0 = [0, 0, 0, 0] :=
  ⟨C8_opacity_endpoints.1 10 20 30 (by norm_num) (by norm_num) (by norm_num),
   C8_opacity_endpoints.2 ⟨200, 100, 50, 25⟩⟩

/-- C2 (counterexample): two files with identical byte content (a PNG
signature) but extensions `png` and `gif` are decoded differently — the
format, hence the decoder, is chosen from the extension, and the
mislabelled file is decoded per its extension (the GIF decoder, which
rejects the PNG content), not per its content. -/
theorem C2_extension_counterexample :
    (ModelFile.mk "png" [0x89, 0x50, 0x4E, 0x47]).content =
        (ModelFile.mk "gif" [0x89, 0x50, 0x4E, 0x47]).content ∧
      load_image_model ⟨"png", [0x89, 0x50, 0x4E, 0x47]⟩ = .staticImage ∧
      load_image_model ⟨"gif", [0x89, 0x50, 0x4E, 0x47]⟩ = .err ∧
      load_image_model ⟨"png", [0x89, 0x50, 0x4E, 0x47]⟩ ≠
        load_image_model ⟨"gif", [0x89, 0x50, 0x4E, 0x47]⟩ := by
  refine ⟨rfl, rfl, rfl, ?_⟩
  decide

/-- C2 (amended): `load_image` chooses the decoder from the file path's
extension (`ImageFormat::from_path`), not the content: the chosen branch
is a function of the extension alone, so any two files with the same
extension are dispatched to the same decoder regardless of their bytes. -/
theorem C2_format_from_extension (f : ModelFile) :
    load_image_branch f = (formatFromExtension f.ext).map branchOf ∧
      ∀ f' : ModelFile, f'.ext = f.ext → load_image_branch f' = load_image_branch f := by
  constructor
  · rfl
  · intro f' h
    simp [load_image_branch, readerFormat, h]

/-- C2 (witness): the amended claim at concrete files — a `gif`-labelled
file is dispatched to the GIF decoder whatever its content. -/
theorem C2_format_from_extension_witness :
    load_image_branch ⟨"gif", []⟩ = (formatFromExtension "gif").map branchOf ∧
      load_image_branch ⟨"gif", [0x89, 0x50, 0x4E, 0x47]⟩ =
        load_image_branch ⟨"gif", []⟩ :=
  ⟨(C2_format_from_extension ⟨"gif", []⟩).1,
   (C2_format_from_extension ⟨"gif", []⟩).2 ⟨"gif", [0x89, 0x50, 0x4E, 0x47]⟩ rfl⟩

/-- C3: on a frame-ready notification at time `now`, the scheduler advances
`current_frame` to `(current_frame + 1) % frames.length` and resets
`last_frame_time` to `now` exactly when `now - last_frame_time` has reached
the current frame's `delay_ms`, and otherwise leaves the state unchanged;
for the 3-frame animation with delays `[100, 200, 50]` and notifications at
150 ms intervals the observed index sequence is 0, 1, 1, 2. -/
theorem C3_frame_scheduler :
    (∀ (s : GifImage) (now : ℕ) (h : s.current_frame < s.frames.length),
        frameStep s now =
          some (if now - s.last_frame_time ≥ (s.frames.get ⟨s.current_frame, h⟩).delay_ms then
                  { s with
                      current_frame := (s.current_frame + 1) % s.frames.length
                      last_frame_time := now }
                else s)) ∧
      (GifImage.mk [⟨[], 100⟩, ⟨[], 200⟩, ⟨[], 50⟩] 0 0).current_frame = 0 ∧
      frameStep ⟨[⟨[], 100⟩, ⟨[], 200⟩, ⟨[], 50⟩], 0, 0⟩ 150 =
        some ⟨[⟨[], 100⟩, ⟨[], 200⟩, ⟨[], 50⟩], 1, 150⟩ ∧
      frameStep ⟨[⟨[], 100⟩, ⟨[], 200⟩, ⟨[], 50⟩], 1, 150⟩ 300 =
        some ⟨[⟨[], 100⟩, ⟨[], 200⟩, ⟨[], 50⟩], 1, 150⟩ ∧
      frameStep ⟨[⟨[], 100⟩, ⟨[], 200⟩, ⟨[], 50⟩], 1, 150⟩ 450 =
        some ⟨[⟨[], 100⟩, ⟨[], 200⟩, ⟨[], 50⟩], 2, 450⟩ := by
  refine ⟨?_, rfl, by decide, by decide, by decide⟩
  intro s now h
  simp only [frameStep, List.get?_eq_get h]
  split_ifs <;> rfl

/-- C3 (witness): the general scheduler rule applied to the scenario's
first notification. -/
theorem C3_frame_scheduler_witness :
    frameStep ⟨[⟨[], 100⟩, ⟨[], 200⟩, ⟨[], 50⟩], 0, 0⟩ 150 =
      some ⟨[⟨[], 100⟩, ⟨[], 200⟩, ⟨[], 50⟩], 1, 150⟩ := by
  have h := C3_frame_scheduler.1 ⟨[⟨[], 100⟩, ⟨[], 200⟩, ⟨[], 50⟩], 0, 0⟩ 150
    (by decide)
  rw [h]
  decide

/-- Iterating the frame-advance assignment adds the iteration count to the
index, modulo the frame count, and touches nothing else. -/
theorem advanceFrame_iterate (s : GifImage) (h : s.current_frame < s.frames.length) :
    ∀ k : ℕ, advanceFrame^[k] s =
      { s with current_frame := (s.current_frame + k) % s.frames.length }
  | 0 => by
      simp [Nat.mod_eq_of_lt h]
  | (k + 1) => by
      rw [Function.iterate_succ_apply', advanceFrame_iterate s h k]
      simp only [advanceFrame]
      rw [Nat.mod_add_mod, Nat.add_assoc]

/-- C6: from a valid frame index, one advance assignment stays in
`[0, frames.length)`, `frames.length` consecutive advance assignments
return the state (hence the index) to its original value, and any
successful scheduler step also keeps the index in range. -/
theorem C6_frame_index_invariant (s : GifImage)
    (h : s.current_frame < s.frames.length) :
    (advanceFrame s).current_frame < s.frames.length ∧
      advanceFrame^[s.frames.length] s = s ∧
      ∀ (now : ℕ) (s' : GifImage), frameStep s now = some s' →
        s'.current_frame < s.frames.length := by
  have hn : 0 < s.frames.length := Nat.lt_of_le_of_lt (Nat.zero_le _) h
  refine ⟨?_, ?_, ?_⟩
  · exact Nat.mod_lt _ hn
  · rw [advanceFrame_iterate s h s.frames.length, Nat.add_mod_right,
      Nat.mod_eq_of_lt h]
  · intro now s' hs
    simp only [frameStep, List.get?_eq_get h] at hs
    split_ifs at hs <;> rw [← Option.some_inj.mp hs]
    · exact Nat.mod_lt _ hn
    · exact h

/-- C6 (witness): the invariant at a concrete two-frame animation starting
at index 1. -/
theorem C6_frame_index_invariant_witness :
    (advanceFrame ⟨[⟨[], 10⟩, ⟨[], 20⟩], 1, 0⟩).current_frame < 2 ∧
      advanceFrame^[2] ⟨[⟨[], 10⟩, ⟨[], 20⟩], 1, 0⟩ = ⟨[⟨[], 10⟩, ⟨[], 20⟩], 1, 0⟩ := by
  have h := C6_frame_index_invariant ⟨[⟨[], 10⟩, ⟨[], 20⟩], 1, 0⟩ (by decide)
  exact ⟨h.1, h.2.1⟩

/-- C9: the GIF branch of `load_image` performs no emptiness check — on an
empty decoded frame sequence it succeeds with `frames = []` and
`current_frame = 0`, on which the very next frame-ready notification
panics (the index `frames[0]` is out of bounds); conversely the handler
step is total whenever the index is in range, in particular whenever
`frames` is non-empty at index 0. -/
theorem C9_empty_gif_panics (o : ℚ) (t0 now : ℕ) :
    (gifFromDecoded [] o t0).frames = [] ∧
      (gifFromDecoded [] o t0).current_frame = 0 ∧
      frameStep (gifFromDecoded [] o t0) now = none ∧
      ∀ s : GifImage, s.current_frame < s.frames.length →
        (frameStep s now).isSome = true := by
  refine ⟨rfl, rfl, rfl, ?_⟩
  intro s h
  simp only [frameStep, List.get?_eq_get h]
  split_ifs <;> rfl

/-- C9 (witness): the empty-frames panic and the guarded totality at
concrete states. -/
theorem C9_empty_gif_panics_witness :
    (gifFromDecoded [] 1 0).frames = [] ∧
      (gifFromDecoded [] 1 0).current_frame = 0 ∧
      frameStep (gifFromDecoded [] 1 0) 5 = none ∧
      (frameStep ⟨[⟨[], 3⟩], 0, 0⟩ 5).isSome = true := by
  have h := C9_empty_gif_panics 1 0 5
  exact ⟨h.1, h.2.1, h.2.2.1, h.2.2.2 ⟨[⟨[], 3⟩], 0, 0⟩ (by decide)⟩

/-- C4: when a logical output of size `(sw, sh)` is known, `configure`
anchors the surface to the top-left corner with margins
`top = sh/2 - target_y` and `left = sw/2 - target_x` (the other two zero)
and commits; on a 1920×1080 output with target `(32, 32)` this gives top
margin 508 and left margin 928; and no successful `draw` of a static
image ever requests a frame-ready follow-up. -/
theorem C4_configure_positioning :
    (∀ (sw sh : ℤ) (tx ty : ℕ),
        configurePosition (some (some (sw, sh))) tx ty =
          some { anchors := ⟨true, true, false, false⟩
                 margins := ⟨Int.tdiv sh 2 - (ty : ℤ), 0, 0, Int.tdiv sw 2 - (tx : ℤ)⟩
                 positioned := true
                 committed := true }) ∧
      configurePosition (some (some (1920, 1080))) 32 32 =
        some ⟨⟨true, true, false, false⟩, ⟨508, 0, 0, 928⟩, true, true⟩ ∧
      ∀ (w h : ℕ) (f : Frame) (e : DrawEffects),
        draw w h (.Static f) = some e → e.frameRequested = false := by
  refine ⟨fun sw sh tx ty => rfl, by decide, ?_⟩
  intro w h f e he
  simp only [draw] at he
  split_ifs at he
  cases Option.some_inj.mp he
  rfl

/-- C4 (witness): the scenario margins and a concrete static draw that
requests no follow-up frame. -/
theorem C4_configure_positioning_witness :
    configurePosition (some (some (1920, 1080))) 32 32 =
        some ⟨⟨true, true, false, false⟩, ⟨508, 0, 0, 928⟩, true, true⟩ ∧
      (DrawEffects.mk ([1, 2, 3, 4] ++ List.replicate 0 0) false true).frameRequested
        = false :=
  ⟨C4_configure_positioning.2.1,
   C4_configure_positioning.2.2 1 1 ⟨[1, 2, 3, 4]⟩
     ⟨[1, 2, 3, 4] ++ List.replicate 0 0, false, true⟩ rfl⟩

/-- One configure step never shrinks the pool capacity. -/
theorem configurePool_len_mono (ok : Bool) (s : PoolState) (cw ch : ℕ) :
    s.len ≤ (configurePool ok s cw ch).len := by
  simp only [configurePool]
  split_ifs
  all_goals first
    | exact le_refl _
    | exact le_trans (le_of_lt (by assumption)) (le_max_left _ _)

/-- C5: the pool is reallocated only when the required `new_w*new_h*4`
bytes exceed the current capacity; a successful grow sets the capacity to
`max(needed, previous_width*previous_height*4)`, which strictly exceeds
the old capacity; and across any sequence of configure events the
capacity never decreases. -/
theorem C5_pool_capacity (s : PoolState) (cw ch : ℕ) (ok : Bool) :
    ((if cw = 0 then s.width else cw) * (if ch = 0 then s.height else ch) * 4 > s.len →
        ok = true →
        (configurePool ok s cw ch).len =
            max ((if cw = 0 then s.width else cw) * (if ch = 0 then s.height else ch) * 4)
              (s.width * s.height * 4) ∧
          s.len < (configurePool ok s cw ch).len) ∧
      ((if cw = 0 then s.width else cw) * (if ch = 0 then s.height else ch) * 4 ≤ s.len →
        (configurePool ok s cw ch).len = s.len) ∧
      ∀ evs : List (Bool × ℕ × ℕ),
        s.len ≤ (evs.foldl (fun st e => configurePool e.1 st e.2.1 e.2.2) s).len := by
  refine ⟨?_, ?_, ?_⟩
  · intro hgt hok
    subst hok
    simp only [configurePool, if_pos hgt, if_pos rfl]
    exact ⟨rfl, lt_of_lt_of_le hgt (le_max_left _ _)⟩
  · intro hle
    simp only [configurePool, if_neg (not_lt.mpr hle)]
  · intro evs
    induction evs generalizing s with
    | nil => exact le_refl _
    | cons e t ih =>
        exact le_trans (configurePool_len_mono e.1 s e.2.1 e.2.2)
          (le_trans (ih _) (le_of_eq rfl))

/-- C5 (witness): a growing step from capacity 100 to `max 400 100`, and
monotone capacity across a two-event sequence. -/
theorem C5_pool_capacity_witness :
    ((configurePool true ⟨100, 5, 5⟩ 10 10).len = max 400 100 ∧
        100 < (configurePool true ⟨100, 5, 5⟩ 10 10).len) ∧
      (configurePool true ⟨100, 5, 5⟩ 3 3).len = 100 ∧
      100 ≤ (([(true, 10, 10), (false, 3, 3)] : List (Bool × ℕ × ℕ)).foldl
          (fun st e => configurePool e.1 st e.2.1 e.2.2) ⟨100, 5, 5⟩).len := by
  have h := C5_pool_capacity ⟨100, 5, 5⟩ 10 10 true
  have h' := C5_pool_capacity ⟨100, 5, 5⟩ 3 3 true
  exact ⟨h.1 (by decide) rfl, h'.2.1 (by decide),
    h.2.2 [(true, 10, 10), (false, 3, 3)]⟩

/-- C7: saving a cache and loading it back at the same path yields the
saved mapping, and loading a nonexistent or unparsable file yields the
empty mapping rather than an error. -/
theorem C7_cache_roundtrip :
    (∀ (fs : String → FileState) (path : String) (c : Cache),
        load_cache (save_cache fs path c) path = c) ∧
      (∀ (fs : String → FileState) (path : String),
        fs path = .absent → load_cache fs path = []) ∧
      ∀ (fs : String → FileState) (path : String),
        fs path = .unparsable → load_cache fs path = [] := by
  refine ⟨?_, ?_, ?_⟩
  · intro fs path c
    simp [load_cache, save_cache]
  · intro fs path h
    simp [load_cache, h]
  · intro fs path h
    simp [load_cache, h]

/-- C7 (witness): the round trip and both fallback cases at a concrete
cache, path and file system. -/
theorem C7_cache_roundtrip_witness :
    load_cache (save_cache (fun _ => .absent) "cachefile" [("k", ⟨"img.png", 1, 2, 1/2⟩)])
        "cachefile" = [("k", ⟨"img.png", 1, 2, 1/2⟩)] ∧
      load_cache (fun _ => FileState.absent) "cachefile" = [] ∧
      load_cache (fun _ => FileState.unparsable) "cachefile" = [] :=
  ⟨C7_cache_roundtrip.1 (fun _ => .absent) "cachefile" [("k", ⟨"img.png", 1, 2, 1/2⟩)],
   C7_cache_roundtrip.2.1 (fun _ => FileState.absent) "cachefile" rfl,
   C7_cache_roundtrip.2.2 (fun _ => FileState.unparsable) "cachefile" rfl⟩

/-- C10: `draw` copies the current frame with `canvas[..frame.data.len()]`
into a `width*4*height`-byte canvas, so whenever the surface byte size
`width*height*4` is smaller than the frame data it panics (for both the
static and the animated branch) instead of returning a `DrawError`; when
the surface byte size is at least the frame length, the static draw
succeeds. -/
theorem C10_draw_slice_panic :
    (∀ (w h : ℕ) (f : Frame), w * h * 4 < f.data.length →
        draw w h (.Static f) = none) ∧
      (∀ (w h : ℕ) (g : GifImage) (fr : GifFrame),
        g.frames.get? g.current_frame = some fr →
        w * h * 4 < fr.data.length → draw w h (.Gif g) = none) ∧
      ∀ (w h : ℕ) (f : Frame), f.data.length ≤ w * h * 4 →
        (draw w h (.Static f)).isSome = true := by
  have hsz : ∀ w h : ℕ, w * 4 * h = w * h * 4 := fun w h => by ring
  refine ⟨?_, ?_, ?_⟩
  · intro w h f hlt
    simp only [draw, hsz]
    rw [if_neg (not_le.mpr hlt)]
  · intro w h g fr hfr hlt
    simp only [draw, hsz, hfr, Option.map_some']
    rw [if_neg (not_le.mpr hlt)]
  · intro w h f hle
    simp only [draw, hsz]
    rw [if_pos hle]
    rfl

/-- C10 (witness): a 1×1 surface (4 canvas bytes) panics on a 5-byte
static frame and on a 5-byte GIF frame, and succeeds on a 4-byte static
frame. -/
theorem C10_draw_slice_panic_witness :
    draw 1 1 (.Static ⟨[1, 2, 3, 4, 5]⟩) = none ∧
      draw 1 1 (.Gif ⟨[⟨[1, 2, 3, 4, 5], 10⟩], 0, 0⟩) = none ∧
      (draw 1 1 (.Static ⟨[1, 2, 3, 4]⟩)).isSome = true :=
  ⟨C10_draw_slice_panic.1 1 1 ⟨[1, 2, 3, 4, 5]⟩ (by decide),
   C10_draw_slice_panic.2.1 1 1 ⟨[⟨[1, 2, 3, 4, 5], 10⟩], 0, 0⟩ ⟨[1, 2, 3, 4, 5], 10⟩
     rfl (by decide),
   C10_draw_slice_panic.2.2 1 1 ⟨[1, 2, 3, 4]⟩ (by decide)⟩

end Rcrosshair
